import Mathlib

/-!
Verification development for `raytrace.hh` (a basic raytracer module).

Colors and images are embedded over `ℚ` (exact arithmetic standing in for
`double` on the code paths that use no irrational operation), geometry over
`ℝ` (the intersection code calls `sqrt`).  The vector library `gmath.hh` is
not part of the repository's files; its operations used by `raytrace.hh`
are modelled from the spec (dot product, subtraction, scalar scale,
magnitude, homogeneous-coordinate tagging).
-/

namespace Raytrace

/-- A color is a 3-dimensional R, G, B vector (`gmath::Vector<double, 3>`),
embedded with one field per component. -/
structure Color where
  r : ℚ
  g : ℚ
  b : ℚ
deriving DecidableEq, Repr

/-- Embeds `is_color_intensity`: test whether a scalar represents an
R, G, or B intensity in the range [0, 1]. -/
def is_color_intensity (x : ℚ) : Bool :=
  decide (0 ≤ x) && decide (x ≤ 1)

/-- Embeds `is_color`: test whether a 3-vector represents a valid
R, G, B color. -/
def is_color (c : Color) : Bool :=
  is_color_intensity c.r && is_color_intensity c.g && is_color_intensity c.b

/-- Embeds `web_color`: convert a 24-bit hexadecimal web color to a `Color`
(`(hex >> 16) / 255.0`, `((hex >> 8) & 0xFF) / 255.0`, `(hex & 0xFF) / 255.0`). -/
def web_color (hex : ℕ) : Color :=
  ⟨(hex >>> 16 : ℕ) / 255, ((hex >>> 8) &&& 0xFF : ℕ) / 255, (hex &&& 0xFF : ℕ) / 255⟩

/-- Embeds `Image::discretize`: convert a scalar color intensity in the range
[0, 1] to a byte value in the range [0, 255]
(`round(intensity * 255.0)` followed by the two clamping branches). -/
def discretize (intensity : ℚ) : ℤ :=
  let x : ℤ := round (intensity * 255)
  if x < 0 then 0
  else if x > 255 then 255
  else x

/-- Embeds `Image`: a raster image, a rectangular grid of `Color` objects,
stored as `_pixels` (a vector of rows; row index `y`, column index `x`). -/
structure Image where
  pixels : List (List Color)
deriving DecidableEq, Repr

/-- Embeds the `Image` constructor: `_pixels.assign(height,
std::vector<Color>(width, fill))`. -/
def mkImage (width height : ℕ) (fill : Color) : Image :=
  ⟨List.replicate height (List.replicate width fill)⟩

/-- Embeds `Image::width`: `_pixels[0].size()`. -/
def Image.width (img : Image) : ℕ :=
  (img.pixels.getD 0 []).length

/-- Embeds `Image::height`: `_pixels.size()`. -/
def Image.height (img : Image) : ℕ :=
  img.pixels.length

/-- Embeds `Image::set_pixel`: `_pixels[y][x] = color`. -/
def set_pixel (img : Image) (x y : ℕ) (color : Color) : Image :=
  ⟨img.pixels.set y ((img.pixels.getD y []).set x color)⟩

/-- Embeds `Image::pixel`: `_pixels[y][x]` (the source asserts the
coordinates are in range; out of range we return an arbitrary default). -/
def pixel (img : Image) (x y : ℕ) : Color :=
  (img.pixels.getD y []).getD x ⟨0, 0, 0⟩

/-- One pixel's contribution to a PPM row as `write_ppm` streams it:
`discretize(c[0]) << ' ' << discretize(c[1]) << ' ' << discretize(c[2])`. -/
def pixelTriple (c : Color) : String :=
  toString (discretize c.r) ++ " " ++ toString (discretize c.g) ++ " "
    ++ toString (discretize c.b)

/-- One PPM data line of `Image::write_ppm`: the `x` loop writes each pixel's
triple, preceded by `' '` when `x > 0`. -/
def rowLine (row : List Color) : String :=
  String.intercalate " " (row.map pixelTriple)

/-- Embeds the text `Image::write_ppm` streams on the success path: the
header line `P3`, a line `width height`, a line `255`, then one line per row
produced by the loop `for (int y = height()-1; y >= 0; --y)`. -/
def writePpmLines (img : Image) : List String :=
  ["P3", toString img.width ++ " " ++ toString img.height, "255"]
    ++ (List.range img.height).reverse.map (fun y => rowLine (img.pixels.getD y []))

/-- Embeds the control flow of `Image::write_ppm` around the stream:
`open_ok` models `!f` being false after `std::ofstream f(path)` (the early
`return false` when the destination cannot be opened), `write_ok` models the
stream still being good when `bool success(f)` is read after the writes.
The method is `const`: it returns the status and the streamed lines and
cannot modify the image. -/
def write_ppm (open_ok write_ok : Bool) (img : Image) : Bool × List String :=
  if open_ok = false then (false, [])
  else (write_ok, writePpmLines img)

/-- Modelled from the spec: the vector library (`gmath.hh`) is not among the
repository's files; per the spec it provides 4-dimensional vectors for 3D
coordinates with homogeneous coordinates. One field per component. -/
structure Vec4 where
  x : ℝ
  y : ℝ
  z : ℝ
  w : ℝ

/-- Modelled from the spec: the vector library's dot product
(`operator*` on two vectors in the source's usage). -/
def dot (a b : Vec4) : ℝ :=
  a.x * b.x + a.y * b.y + a.z * b.z + a.w * b.w

/-- Modelled from the spec: componentwise vector subtraction. -/
def vsub (a b : Vec4) : Vec4 :=
  ⟨a.x - b.x, a.y - b.y, a.z - b.z, a.w - b.w⟩

/-- Modelled from the spec: componentwise vector addition. -/
def vadd (a b : Vec4) : Vec4 :=
  ⟨a.x + b.x, a.y + b.y, a.z + b.z, a.w + b.w⟩

/-- Modelled from the spec: scalar scale of a vector. -/
def smul (c : ℝ) (a : Vec4) : Vec4 :=
  ⟨c * a.x, c * a.y, c * a.z, c * a.w⟩

/-- Modelled from the spec: vector negation (`-(*vec_w)` in the source). -/
def vneg (a : Vec4) : Vec4 :=
  ⟨-a.x, -a.y, -a.z, -a.w⟩

/-- Modelled from the spec: the vector's magnitude. -/
noncomputable def magnitude (a : Vec4) : ℝ :=
  Real.sqrt (dot a a)

/-- Modelled from the spec: homogeneous-coordinate tagging — a point has
fourth component fixed at 1 (`is_homogeneous_point`). -/
def is_homogeneous_point (a : Vec4) : Prop :=
  a.w = 1

/-- Modelled from the spec: a direction/translation vector has fourth
component fixed at 0 (`is_homogeneous_translation`). -/
def is_homogeneous_translation (a : Vec4) : Prop :=
  a.w = 0

/-- Embeds `Intersection`: an intersection between a viewing ray and a scene
object, with a point of intersection, surface normal vector and time
parameter `t`. -/
structure Inter where
  point : Vec4
  normal : Vec4
  t : ℝ

/-- The assertions of the `Intersection` constructor:
`assert(point->is_homogeneous_point())`,
`assert(normal->is_homogeneous_translation())`, `assert(t >= 0.0)`. -/
def intersectionAssert (i : Inter) : Prop :=
  is_homogeneous_point i.point ∧ is_homogeneous_translation i.normal ∧ 0 ≤ i.t

/-- Embeds `SceneSphere::intersect`, line by line: the quadratic
coefficients, the discriminant test, both roots, `time = (t0 < t1) ? t0 : t1`,
the hit point `ray_origin + ray_direction * time`, and the hit normal
`(hit_point - center) * 2`. -/
noncomputable def sphereIntersect (center : Vec4) (radius : ℝ)
    (ray_origin ray_direction : Vec4) : Option Inter :=
  let a := dot ray_direction ray_direction
  let b := dot ray_direction (vsub ray_origin center) * 2
  let c := dot (vsub ray_origin center) (vsub ray_origin center) - radius * radius
  let discriminant := b * b - 4 * a * c
  if discriminant < 0 then none
  else
    let t0 := (-b + Real.sqrt discriminant) / (2 * a)
    let t1 := (-b - Real.sqrt discriminant) / (2 * a)
    let time := if t0 < t1 then t0 else t1
    let hit_point := vadd ray_origin (smul time ray_direction)
    let hit_normal := smul 2 (vsub hit_point center)
    some ⟨hit_point, hit_normal, time⟩

/-- The normal the spec asks for, for comparison with the source:
`(hit_point − center)` normalized. -/
noncomputable def specNormalizedNormal (hit_point center : Vec4) : Vec4 :=
  smul (magnitude (vsub hit_point center))⁻¹ (vsub hit_point center)

/-- Embeds the attenuation line of `Scene::evaluate_shading`:
`point_light_intensity = point_light->intensity() /
light_displacement->magnitude()`. -/
noncomputable def point_light_attenuation (intensity : ℝ)
    (light_displacement : Vec4) : ℝ :=
  intensity / magnitude light_displacement

/-- The attenuation the spec asks for, for comparison with the source:
`point_light.intensity / distance²`. -/
noncomputable def specAttenuation (intensity : ℝ) (light_displacement : Vec4) : ℝ :=
  intensity / (magnitude light_displacement * magnitude light_displacement)

/-- Embeds `Scene::compute_viewing_ray` as far as it is defined: `u` and `v`
are computed as in the source; the basis vectors `vec_u`, `vec_v`, `vec_w`
are declared in the source but never initialized, and `i`, `j`, `width`,
`height` are not in scope there (they are locals of `render`), so all of
these are taken as parameters. Returns (ray_origin, ray_direction). -/
noncomputable def compute_viewing_ray (vec_u vec_v vec_w : Vec4)
    (cam_location : Vec4) (l t r b d : ℝ) (perspective : Bool)
    (i j width height : ℕ) : Vec4 × Vec4 :=
  let u := l + (r - l) * ((i : ℝ) + 0.5) / (width : ℝ)
  let v := b + (t - b) * ((j : ℝ) + 0.5) / (height : ℝ)
  if perspective then
    (smul 1 cam_location,
     vadd (vadd (smul (-d) vec_w) (smul u vec_u)) (smul v vec_v))
  else
    (vadd (vadd cam_location (smul u vec_u)) (smul v vec_v), vneg vec_w)

/-- Embeds the pixel loops of `Scene::render`: the image starts filled with
the background color; for each pixel and each scene object, a hit leaves the
image untouched (the shading call in the source is commented out) and a miss
sets the pixel to the background color. A scene object is its `intersect`
capability; since `compute_viewing_ray` does not compile (see its comment),
`render` is parametrized by the viewing ray it would produce per pixel. -/
noncomputable def render (background_color : Color)
    (objects : List (Vec4 → Vec4 → Option Inter))
    (viewing_ray : ℕ → ℕ → Vec4 × Vec4) (width height : ℕ) : Image :=
  let image := mkImage width height background_color
  (List.range height).foldl (fun image j =>
    (List.range width).foldl (fun image i =>
      objects.foldl (fun image scene_obj =>
        match scene_obj (viewing_ray i j).1 (viewing_ray i j).2 with
        | some _hit_point => image
        | none => set_pixel image i j background_color) image) image) image

/-- Concrete 1×1 image used as a witness input. -/
def imgW : Image := mkImage 1 1 ⟨1/2, 0, 1⟩

/-- Concrete sphere center 3 units in front of the example ray. -/
def sphereHitCenter : Vec4 := ⟨0, 0, -3, 1⟩

/-- Concrete sphere center 5 units behind the example ray. -/
def sphereBehindCenter : Vec4 := ⟨0, 0, -5, 1⟩

/-- Concrete ray origin (a homogeneous point at the world origin). -/
def rayOriginEx : Vec4 := ⟨0, 0, 0, 1⟩

/-- Concrete ray direction looking down the negative z axis. -/
def rayDirFront : Vec4 := ⟨0, 0, -1, 0⟩

/-- Concrete ray direction looking down the positive z axis (away from
`sphereBehindCenter`). -/
def rayDirAway : Vec4 := ⟨0, 0, 1, 0⟩

/-- The intersection record `sphereIntersect sphereHitCenter 1` produces for
the example ray: hit point `(0,0,-2)`, normal `(0,0,2)`, `t = 2`. -/
def interFront : Inter := ⟨⟨0, 0, -2, 1⟩, ⟨0, 0, 2, 0⟩, 2⟩

/-- The intersection record `sphereIntersect sphereBehindCenter 1` produces
for the example ray: both roots are negative and the source keeps `t = -6`. -/
def interBehind : Inter := ⟨⟨0, 0, -6, 1⟩, ⟨0, 0, -2, 0⟩, -6⟩

/-- Concrete displacement of length 2 from a shaded point to a light. -/
def lightDisp2 : Vec4 := ⟨0, 0, 2, 0⟩

/-- Concrete basis vector along x. -/
def basisU : Vec4 := ⟨1, 0, 0, 0⟩

/-- Concrete basis vector along y. -/
def basisV : Vec4 := ⟨0, 1, 0, 0⟩

/-- Concrete basis vector along z. -/
def basisW1 : Vec4 := ⟨0, 0, 1, 0⟩

/-- A different junk value for the never-initialized `vec_w`. -/
def basisW2 : Vec4 := ⟨0, 0, 2, 0⟩

/-- Concrete camera location (a homogeneous point at the world origin). -/
def camLoc : Vec4 := ⟨0, 0, 0, 1⟩

/-- Concrete constant viewing-ray assignment used as a witness input. -/
def rayW : ℕ → ℕ → Vec4 × Vec4 := fun _ _ => (rayOriginEx, rayDirFront)

lemma byte_intensity (n : ℕ) (h : n ≤ 255) :
    is_color_intensity ((n : ℚ) / 255) = true := by
  simp only [is_color_intensity, Bool.and_eq_true, decide_eq_true_eq]
  refine ⟨by positivity, ?_⟩
  rw [div_le_one (by norm_num : (0:ℚ) < 255)]
  exact_mod_cast h

lemma byte_round (n : ℕ) : round ((n : ℚ) / 255 * 255) = (n : ℤ) := by
  rw [div_mul_cancel₀ _ (by norm_num : (255:ℚ) ≠ 0)]
  exact round_natCast n

/-- C10: for every 24-bit value `hex ≤ 0xFFFFFF`, `web_color hex` satisfies
`is_color`, and discretizing recovers the original bytes exactly:
`round(c[0]·255) = hex >> 16`, `round(c[1]·255) = (hex >> 8) & 0xFF`,
`round(c[2]·255) = hex & 0xFF`. -/
theorem web_color_round_trip (hex : ℕ) (h : hex ≤ 0xFFFFFF) :
    is_color (web_color hex) = true
    ∧ round ((web_color hex).r * 255) = ((hex >>> 16 : ℕ) : ℤ)
    ∧ round ((web_color hex).g * 255) = (((hex >>> 8) &&& 0xFF : ℕ) : ℤ)
    ∧ round ((web_color hex).b * 255) = ((hex &&& 0xFF : ℕ) : ℤ) := by
  have h1 : hex >>> 16 ≤ 255 := by
    rw [Nat.shiftRight_eq_div_pow]
    omega
  have h2 : (hex >>> 8) &&& 0xFF ≤ 255 := Nat.and_le_right
  have h3 : hex &&& 0xFF ≤ 255 := Nat.and_le_right
  refine ⟨?_, ?_, ?_, ?_⟩
  · simp only [is_color, web_color, Bool.and_eq_true]
    exact ⟨⟨byte_intensity _ h1, byte_intensity _ h2⟩, byte_intensity _ h3⟩
  · simp only [web_color]
    exact byte_round _
  · simp only [web_color]
    exact byte_round _
  · simp only [web_color]
    exact byte_round _

/-- Witness for C10 at the concrete web color `0xABCDEF`. -/
theorem web_color_round_trip_witness :
    is_color (web_color 0xABCDEF) = true
    ∧ round ((web_color 0xABCDEF).r * 255) = ((0xABCDEF >>> 16 : ℕ) : ℤ)
    ∧ round ((web_color 0xABCDEF).g * 255) = (((0xABCDEF >>> 8) &&& 0xFF : ℕ) : ℤ)
    ∧ round ((web_color 0xABCDEF).b * 255) = ((0xABCDEF &&& 0xFF : ℕ) : ℤ) :=
  web_color_round_trip 0xABCDEF (by norm_num)

/-- C9: `write_ppm` returns false when the destination cannot be opened, and
returns true exactly when the write completed without an I/O error (in the
pure embedding the `const` method cannot modify the image). -/
theorem write_ppm_status (open_ok write_ok : Bool) (img : Image) :
    (write_ppm false write_ok img).1 = false
    ∧ ((write_ppm open_ok write_ok img).1 = true ↔ open_ok = true ∧ write_ok = true) := by
  refine ⟨rfl, ?_⟩
  cases open_ok <;> cases write_ok <;> simp [write_ppm]

/-- C8: on success `write_ppm` emits exactly a `P3` header line, a
`width height` line, a `255` line, then one line per image row, rows from the
top scanline down (in-memory row indices in decreasing order, row 0 being the
bottom), and each channel value is `round(intensity·255)` clamped to
`[0, 255]`. -/
theorem ppm_format (img : Image) (k : ℕ) (hk : k < img.height) (q : ℚ) :
    (writePpmLines img).length = 3 + img.height
    ∧ (writePpmLines img).getD 0 "" = "P3"
    ∧ (writePpmLines img).getD 1 ""
        = toString img.width ++ " " ++ toString img.height
    ∧ (writePpmLines img).getD 2 "" = "255"
    ∧ (writePpmLines img).getD (3 + k) ""
        = rowLine (img.pixels.getD (img.height - 1 - k) [])
    ∧ discretize q = max 0 (min 255 (round (q * 255))) := by
  refine ⟨by simp [writePpmLines]; omega, rfl, rfl, rfl, ?_, ?_⟩
  · have hlen : k < ((List.range img.height).reverse.map
        (fun y => rowLine (img.pixels.getD y []))).length := by
      simpa using hk
    rw [writePpmLines, List.getD_append_right _ _ _ _ (by simp)]
    simp only [List.length_cons, List.length_nil]
    rw [show 3 + k - (0 + 1 + 1 + 1) = k by omega]
    rw [List.getD_eq_getElem _ _ hlen, List.getElem_map, List.getElem_reverse]
    simp [List.getElem_range, hk]
  · simp only [discretize]
    split
    · omega
    · split <;> omega

/-- Witness for C8 at a concrete 1×1 image with intensities 1/2, 0, 1. -/
theorem ppm_format_witness :
    0 < imgW.height
    ∧ ((writePpmLines imgW).length = 3 + imgW.height
    ∧ (writePpmLines imgW).getD 0 "" = "P3"
    ∧ (writePpmLines imgW).getD 1 ""
        = toString imgW.width ++ " " ++ toString imgW.height
    ∧ (writePpmLines imgW).getD 2 "" = "255"
    ∧ (writePpmLines imgW).getD (3 + 0) ""
        = rowLine (imgW.pixels.getD (imgW.height - 1 - 0) [])
    ∧ discretize (1/2) = max 0 (min 255 (round ((1/2 : ℚ) * 255)))) :=
  ⟨by decide, ppm_format imgW 0 (by decide) (1/2)⟩

lemma foldl_fixed {α : Type} {β : Type} (l : List β) (b : α) :
    l.foldl (fun b _ => b) b = b := by
  induction l generalizing b with
  | nil => rfl
  | cons a l ih => exact ih b

lemma render_empty_objects_eq (bg : Color) (vr : ℕ → ℕ → Vec4 × Vec4)
    (width height : ℕ) :
    render bg [] vr width height = mkImage width height bg := by
  unfold render
  simp only [List.foldl_nil, foldl_fixed]

lemma getD_replicate {α : Type} (a d : α) (n m : ℕ) (h : m < n) :
    (List.replicate n a).getD m d = a := by
  rw [List.getD_eq_getElem _ _ (by simpa using h), List.getElem_replicate]

lemma pixel_mkImage (w h : ℕ) (c : Color) (i j : ℕ) (hi : i < w) (hj : j < h) :
    pixel (mkImage w h c) i j = c := by
  show ((List.replicate h (List.replicate w c)).getD j []).getD i ⟨0, 0, 0⟩ = c
  rw [getD_replicate _ _ _ _ hj, getD_replicate _ _ _ _ hi]

/-- C7: for a scene with zero primitives, every pixel of the rendered image
equals the configured background color, for any viewing rays (hence for any
camera parameters and projection mode) and any positive dimensions. -/
theorem render_no_objects (bg : Color) (viewing_ray : ℕ → ℕ → Vec4 × Vec4)
    (width height : ℕ) (hw : 0 < width) (hh : 0 < height)
    (i j : ℕ) (hi : i < width) (hj : j < height) :
    pixel (render bg [] viewing_ray width height) i j = bg := by
  rw [render_empty_objects_eq]
  exact pixel_mkImage _ _ _ _ _ hi hj

/-- Witness for C7: a 1×1 render of an empty scene over a black background. -/
theorem render_no_objects_witness :
    0 < 1 ∧ pixel (render ⟨0, 0, 0⟩ [] rayW 1 1) 0 0 = ⟨0, 0, 0⟩ :=
  ⟨by decide,
   render_no_objects ⟨0, 0, 0⟩ rayW 1 1 (by decide) (by decide) 0 0
     (by decide) (by decide)⟩

lemma sqrt_four : Real.sqrt 4 = 2 := by
  rw [show (4:ℝ) = 2 ^ 2 by norm_num, Real.sqrt_sq (by norm_num : (0:ℝ) ≤ 2)]

lemma sphereIntersect_front :
    sphereIntersect sphereHitCenter 1 rayOriginEx rayDirFront = some interFront := by
  unfold sphereIntersect sphereHitCenter rayOriginEx rayDirFront interFront
  norm_num [dot, vsub, vadd, smul, sqrt_four]

lemma sphereIntersect_behind :
    sphereIntersect sphereBehindCenter 1 rayOriginEx rayDirAway = some interBehind := by
  unfold sphereIntersect sphereBehindCenter rayOriginEx rayDirAway interBehind
  norm_num [dot, vsub, vadd, smul, sqrt_four]

/-- C1 (code-bug evidence): rendering a 1×1 scene whose single sphere is
validly hit by the viewing ray (`t = 2 ≥ 0`) still leaves the pixel at the
background color — the shading call in the render loop is commented out and
a miss would re-write the background per object. -/
theorem render_never_shades :
    pixel (render ⟨1, 0, 0⟩ [sphereIntersect sphereHitCenter 1]
        (fun _ _ => (rayOriginEx, rayDirFront)) 1 1) 0 0 = ⟨1, 0, 0⟩
    ∧ sphereIntersect sphereHitCenter 1 rayOriginEx rayDirFront = some interFront
    ∧ 0 ≤ interFront.t := by
  refine ⟨?_, sphereIntersect_front, by norm_num [interFront]⟩
  unfold render
  simp only [show List.range 1 = [0] from rfl, List.foldl_cons, List.foldl_nil]
  rw [sphereIntersect_front]
  exact pixel_mkImage 1 1 _ 0 0 (by norm_num) (by norm_num)

/-- C2 (code-bug evidence): for a sphere entirely behind the ray origin both
quadratic roots are negative, yet `SceneSphere::intersect` returns an
intersection with `t = -6 < 0` (it takes `min(t0, t1)` with no
non-negativity check), violating the `Intersection` constructor's own
`assert(t >= 0.0)` and the claim that only `t ≥ 0` hits are returned. -/
theorem sphere_intersect_negative_root :
    sphereIntersect sphereBehindCenter 1 rayOriginEx rayDirAway = some interBehind
    ∧ interBehind.t < 0
    ∧ ¬ intersectionAssert interBehind := by
  refine ⟨sphereIntersect_behind, by norm_num [interBehind], ?_⟩
  intro hA
  have h := hA.2.2
  norm_num [interBehind] at h

/-- C5 counterexample: at a concrete valid hit the returned normal is
`(0,0,2,0)`, while `(hit_point − center)` normalized is `(0,0,1,0)` — the
source returns the unnormalized gradient `2·(hit_point − center)`. -/
theorem sphere_normal_not_normalized :
    sphereIntersect sphereHitCenter 1 rayOriginEx rayDirFront = some interFront
    ∧ interFront.normal ≠ specNormalizedNormal interFront.point sphereHitCenter := by
  refine ⟨sphereIntersect_front, ?_⟩
  intro hEq
  have hz := congrArg Vec4.z hEq
  norm_num [interFront, sphereHitCenter, specNormalizedNormal, magnitude,
    dot, vsub, smul, Real.sqrt_one] at hz

/-- C5 amended: for every hit returned by `SceneSphere::intersect`, the hit
point equals `origin + t · direction` and the returned surface normal is
`2 · (hit_point − center)` — parallel to `(hit_point − center)` but not
normalized — represented as a homogeneous direction (fourth component 0)
while the hit point is a homogeneous point (fourth component 1). -/
theorem sphere_hit_geometry (center ray_origin ray_direction : Vec4)
    (radius : ℝ) (i : Inter)
    (h : sphereIntersect center radius ray_origin ray_direction = some i)
    (hd : is_homogeneous_translation ray_direction)
    (hc : is_homogeneous_point center) (ho : is_homogeneous_point ray_origin) :
    i.point = vadd ray_origin (smul i.t ray_direction)
    ∧ i.normal = smul 2 (vsub i.point center)
    ∧ is_homogeneous_point i.point
    ∧ is_homogeneous_translation i.normal := by
  unfold is_homogeneous_translation at hd
  unfold is_homogeneous_point at hc ho
  simp only [sphereIntersect] at h
  split at h
  · exact absurd h (by simp)
  · obtain rfl := (Option.some.injEq _ _).mp h
    refine ⟨rfl, rfl, ?_, ?_⟩
    · show _ = (1:ℝ)
      simp [vadd, smul, hd, ho]
    · show _ = (0:ℝ)
      simp [vadd, smul, vsub, hd, hc, ho]

/-- Witness for the amended C5 at the concrete front-facing hit. -/
theorem sphere_hit_geometry_witness :
    interFront.point = vadd rayOriginEx (smul interFront.t rayDirFront)
    ∧ interFront.normal = smul 2 (vsub interFront.point sphereHitCenter)
    ∧ is_homogeneous_point interFront.point
    ∧ is_homogeneous_translation interFront.normal :=
  sphere_hit_geometry sphereHitCenter rayOriginEx rayDirFront 1 interFront
    sphereIntersect_front rfl rfl rfl

/-- C4 (code-bug evidence): the source divides a point light's intensity by
the distance, not the squared distance — at distance 2 it yields 1/2 where
the inverse-square attenuation of the claim yields 1/4. -/
theorem attenuation_not_inverse_square :
    point_light_attenuation 1 lightDisp2 = 1 / 2
    ∧ specAttenuation 1 lightDisp2 = 1 / 4
    ∧ (1 / 2 : ℝ) ≠ 1 / 4 := by
  have hm : magnitude lightDisp2 = 2 := by
    unfold magnitude lightDisp2 dot
    norm_num [sqrt_four]
  refine ⟨?_, ?_, by norm_num⟩
  · unfold point_light_attenuation
    rw [hm]
  · unfold specAttenuation
    rw [hm]
    norm_num

/-- C6 (code-bug evidence): the viewing ray the source computes depends on
the never-initialized basis vectors — two junk values for `vec_w` give two
different ray directions at the same pixel of the same camera, so the ray is
not the function of camera and pixel the claim describes. -/
theorem viewing_ray_reads_uninitialized_basis :
    (compute_viewing_ray basisU basisV basisW1 camLoc (-1) 1 1 (-1) 1 true 0 0 1 1).2
    ≠ (compute_viewing_ray basisU basisV basisW2 camLoc (-1) 1 1 (-1) 1 true 0 0 1 1).2 := by
  intro hEq
  have hz := congrArg Vec4.z hEq
  norm_num [compute_viewing_ray, basisU, basisV, basisW1, basisW2, camLoc,
    vadd, smul, vneg] at hz

end Raytrace
